import Mathlib

/-!
Verification of the uwuchat client core (src/client/client.py) against its
natural-language specification.

Shallow embedding conventions:
* Text is modelled as a list of Unicode code points (List Nat); the helper
  UwuChat.str embeds a Lean string literal into that representation.
* Byte strings are List Nat with every element below 256.
* Python str.strip() is UwuChat.pyStrip, Python bytes.decode() is
  UwuChat.utf8Decode (strict UTF-8, rejecting overlong forms, surrogates and
  code points above 0x10FFFF, exactly as CPython does), and str.encode() is
  UwuChat.utf8Encode.
* The asyncio coroutine Client.net is modelled as a deterministic machine
  UwuChat.netSteps driven by a list of environment events (each event
  resolves one await/suspension point); it produces the list of observable
  actions (transcript log lines, writer operations, notification sounds,
  printed stack traces) and a final outcome of the task.
-/

namespace UwuChat

/-- Embed a Lean string literal as a list of Unicode code points. -/
def str (s : String) : List Nat := s.data.map Char.toNat

/-- Python str.isspace for a single code point: the characters stripped by
Python str.strip() with no argument. -/
def isPySpace (c : Nat) : Bool :=
  (9 ≤ c && c ≤ 13) || (28 ≤ c && c ≤ 31) || c == 32 || c == 0x85 || c == 0xA0 ||
  c == 0x1680 || (0x2000 ≤ c && c ≤ 0x200A) || c == 0x2028 || c == 0x2029 ||
  c == 0x202F || c == 0x205F || c == 0x3000

/-- Python str.strip(): drop leading and trailing whitespace. -/
def pyStrip (s : List Nat) : List Nat :=
  ((s.dropWhile isPySpace).reverse.dropWhile isPySpace).reverse

/-- UTF-8 encoding of one code point (code points below 0x110000). -/
def utf8EncodeChar (c : Nat) : List Nat :=
  if c < 0x80 then [c]
  else if c < 0x800 then [0xC0 + c / 64, 0x80 + c % 64]
  else if c < 0x10000 then [0xE0 + c / 4096, 0x80 + c / 64 % 64, 0x80 + c % 64]
  else [0xF0 + c / 262144, 0x80 + c / 4096 % 64, 0x80 + c / 64 % 64, 0x80 + c % 64]

/-- UTF-8 encoding of a string of code points: Python str.encode(). -/
def utf8Encode (s : List Nat) : List Nat := s.flatMap utf8EncodeChar

/-- Is the byte a UTF-8 continuation byte. -/
def isCont (b : Nat) : Bool := 0x80 ≤ b && b < 0xC0

/-- Decode one UTF-8 sequence whose lead byte is b and whose following
bytes start rest: the decoded code point and the bytes left over. none on
a stray continuation byte, an overlong lead or sequence, a surrogate, a
code point above 0x10FFFF, a bad continuation byte or a truncated
sequence — the conditions under which CPython raises UnicodeDecodeError. -/
def decodeOne (b : Nat) (rest : List Nat) : Option (Nat × List Nat) :=
  if b < 0x80 then some (b, rest)
  else if b < 0xC2 then none
  else if b < 0xE0 then
    match rest with
    | c1 :: r =>
      if isCont c1 then some ((b - 0xC0) * 64 + (c1 - 0x80), r) else none
    | [] => none
  else if b < 0xF0 then
    match rest with
    | c1 :: c2 :: r =>
      let cp := (b - 0xE0) * 4096 + (c1 - 0x80) * 64 + (c2 - 0x80)
      if isCont c1 && isCont c2 && 0x800 ≤ cp && !(0xD800 ≤ cp && cp ≤ 0xDFFF) then
        some (cp, r)
      else none
    | _ => none
  else if b < 0xF5 then
    match rest with
    | c1 :: c2 :: c3 :: r =>
      let cp := (b - 0xF0) * 262144 + (c1 - 0x80) * 4096 + (c2 - 0x80) * 64 + (c3 - 0x80)
      if isCont c1 && isCont c2 && isCont c3 && 0x10000 ≤ cp && cp ≤ 0x10FFFF then
        some (cp, r)
      else none
    | _ => none
  else none

/-- Fuel-driven UTF-8 decoding loop: decode lead-byte sequences until the
input is exhausted. Each step consumes at least one byte, so fuel equal to
the input length always suffices. -/
def utf8DecodeF : Nat → List Nat → Option (List Nat)
  | _, [] => some []
  | 0, _ :: _ => none
  | fuel + 1, b :: rest =>
    match decodeOne b rest with
    | none => none
    | some (cp, r) => (utf8DecodeF fuel r).map (cp :: ·)

/-- Strict UTF-8 decoding of a byte list into code points: Python
bytes.decode(), returning none exactly when CPython raises
UnicodeDecodeError. -/
def utf8Decode (l : List Nat) : Option (List Nat) := utf8DecodeF l.length l

/-! ### Client configuration (Client.__init__) -/

/-- Per-instance client options: host, port and display name, set once in
Client.__init__ and never reconfigured. All three are kept as code-point
text (the port appears only inside a log f-string). -/
structure Cfg where
  name : List Nat
  host : List Nat
  port : List Nat
  deriving DecidableEq

/-- Client.mention_str: the f-string prefixing the display name with an
at sign (code point 64). -/
def mention_str (cfg : Cfg) : List Nat := 64 :: cfg.name

/-- The Python in operator on strings: contiguous substring containment,
true for the empty pattern. -/
def strContains (pat : List Nat) : List Nat → Bool
  | [] => pat.isEmpty
  | b :: rest => pat.isPrefixOf (b :: rest) || strContains pat rest

/-! ### Framed transport (Client.recv over asyncio StreamReader.readuntil) -/

/-- Split a buffer at the first newline byte: the frame through and
including the delimiter, and the remaining buffered bytes. none when the
buffer holds no delimiter yet. -/
def splitFrame : List Nat → Option (List Nat × List Nat)
  | [] => none
  | b :: rest =>
    if b == 10 then some ([10], rest)
    else (splitFrame rest).map (fun p => (b :: p.1, p.2))

/-- StreamReader.readuntil on the newline delimiter, as used by Client.recv:
starting from the current buffer, consume incoming chunks until the buffer
contains a delimiter, then return the frame up to and including the first
delimiter together with the bytes retained in the buffer. none models the
call still suspended (or failing with IncompleteReadError at EOF) because
no delimiter ever arrives. -/
def readuntilModel : List (List Nat) → List Nat → Option (List Nat × List Nat)
  | chunks, buf =>
    match splitFrame buf with
    | some fr => some fr
    | none =>
      match chunks with
      | [] => none
      | c :: cs => readuntilModel cs (buf ++ c)

/-! ### Outbox (Client._entry_binding) -/

/-- Result of Client._entry_binding: the bytes whose send task was
scheduled, if any, and the value returned to Tk (always the literal
string break). -/
structure EntryResult where
  sent : Option (List Nat)
  ret : List Nat
  deriving DecidableEq

/-- Client._entry_binding. The writer is modelled as none when still
unassigned and some closing when live, closing being the result of
writer.is_closing(). The raw argument is the text held by the entry
widget; the code strips it, drops it when the stripped form is empty, and
otherwise encodes the f-string joining the client name and the message. -/
def entry_binding (cfg : Cfg) (writer : Option Bool) (raw : List Nat) : EntryResult :=
  match writer with
  | none => { sent := none, ret := str "break" }
  | some closing =>
    if closing then { sent := none, ret := str "break" }
    else
      let message := pyStrip raw
      if message ≠ [] then
        { sent := some (utf8Encode (cfg.name ++ str ": " ++ message ++ [10])),
          ret := str "break" }
      else { sent := none, ret := str "break" }

/-! ### Session (Client.net) -/

/-- Transcript line logged at the top of the reconnect loop. -/
def connectingLine (cfg : Cfg) : List Nat :=
  str "[info] connecting to host " ++ cfg.host ++ str " on port " ++ cfg.port ++ str "..."

/-- Transcript line logged right after open_connection succeeds. -/
def connectedLine : List Nat := str "[info] connected"

/-- Transcript line logged when the receive-loop guard observes EOF or a
closing writer. -/
def connClosedLine : List Nat := str "[error] server connection closed"

/-- Transcript line logged by the CancelledError handler. -/
def quittingLine : List Nat := str "[info] quitting..."

/-- Notification kinds played through playsound. -/
inductive Sound
  | mention
  | message
  deriving DecidableEq

/-- Observable actions of the client coroutines, in program order: a
transcript log line (always important), writer.close(), awaiting
writer.wait_closed(), a printed stack trace, a notification sound, and the
final await of the net task at the end of Client._async_run. -/
inductive Action
  | logLine (text : List Nat)
  | closeWriter
  | waitClosed
  | printExc
  | sound (k : Sound)
  | awaitNetTask
  deriving DecidableEq

/-- How the net task ends: returning after the CancelledError handler
finished closing the writer; returning after the bare except printed a
stack trace; raising AttributeError out of the CancelledError handler
because the writer was still None; or still pending because the supplied
event list ended at an await. -/
inductive Outcome
  | closed
  | exited
  | attrError
  | pending
  deriving DecidableEq

/-- Environment events, each resolving one await of Client.net:
open_connection succeeds or raises, the receive-loop guard observes EOF or
a closing writer, Client.recv returns one frame (with the focus state
focus_get() reports for that iteration), Client.recv raises
(IncompleteReadError or an OS error), or CancelledError is delivered at
the pending await. -/
inductive NetEvent
  | connectOk
  | connectFail
  | eofSeen
  | frame (data : List Nat) (focused : Bool)
  | recvErr
  | cancel
  deriving DecidableEq

/-- Where Client.net is suspended: at the open_connection await (with the
current writer state) or inside the receive loop at the recv await (the
writer is live and not closing there). -/
inductive Phase
  | connecting (writer : Option Bool)
  | connected
  deriving DecidableEq

/-- The except asyncio.CancelledError handler of Client.net: log the
quitting line, then dereference self.writer. A None writer raises
AttributeError after the log; otherwise close() is called unless the
writer is already closing, and wait_closed() is awaited. -/
def cancelHandler (writer : Option Bool) : List Action × Outcome :=
  match writer with
  | none => ([.logLine quittingLine], .attrError)
  | some closing =>
    (.logLine quittingLine :: (if closing then [] else [.closeWriter]) ++ [.waitClosed], .closed)

/-- One-await-per-event execution of Client.net from a suspension point.
The try block wraps the whole reconnect loop, so open_connection raising
or recv raising (including decode failure of a received frame) falls to
the bare except, which prints a stack trace and lets the coroutine return.
The eofSeen branch logs the error line, calls writer.close() and falls
back to the top of the loop, logging the connecting line before the next
await. A received frame is decoded, its last character dropped, the
notification sound chosen when the window is unfocused, and the text
logged. -/
def netSteps (cfg : Cfg) : Phase → List NetEvent → List Action × Outcome
  | _, [] => ([], .pending)
  | .connecting w, e :: rest =>
    match e with
    | .cancel => cancelHandler w
    | .connectFail => ([.printExc], .exited)
    | .connectOk =>
      let (tr, o) := netSteps cfg .connected rest
      (.logLine connectedLine :: tr, o)
    | _ => ([], .pending)
  | .connected, e :: rest =>
    match e with
    | .cancel => cancelHandler (some false)
    | .recvErr => ([.printExc], .exited)
    | .eofSeen =>
      let (tr, o) := netSteps cfg (.connecting (some true)) rest
      (.logLine connClosedLine :: .closeWriter :: .logLine (connectingLine cfg) :: tr, o)
    | .frame data focused =>
      match utf8Decode data with
      | none => ([.printExc], .exited)
      | some s =>
        let msg := s.dropLast
        let (tr, o) := netSteps cfg .connected rest
        ((if focused then []
          else if strContains (mention_str cfg) msg then [.sound .mention]
          else [.sound .message]) ++ .logLine msg :: tr, o)
    | _ => ([], .pending)

/-- Client.net started from Client._async_run: the writer begins as None
and the first action is the connecting log line, before the first
open_connection await. -/
def netRun (cfg : Cfg) (evs : List NetEvent) : List Action × Outcome :=
  let (tr, o) := netSteps cfg (.connecting none) evs
  (.logLine (connectingLine cfg) :: tr, o)

/-- Client._async_run: run the net task to completion (the Tk update pump
iterations are not observable here), then await the finished task once
more; the await action is therefore the last action before asyncio.run
returns, and a task that ended in an exception propagates it through this
await. -/
def asyncRun (cfg : Cfg) (evs : List NetEvent) : List Action × Outcome :=
  let (tr, o) := netRun cfg evs
  (tr ++ [.awaitNetTask], o)

/-- Count how many times a given transcript line occurs in a trace. -/
def countLog (t : List Nat) (tr : List Action) : Nat := tr.count (.logLine t)

/-- Configuration used by concrete scenarios: a client named alice against
the default endpoint of Client.__init__. -/
def cfg0 : Cfg := { name := str "alice", host := str "hazel.cafe", port := str "8888" }

/-! ### Helper lemmas -/

/-- Appending the newline byte to a byte list that decodes successfully
extends the decoded text by the newline character: one decoding step is
unaffected because the newline is never a valid continuation byte. -/
theorem decodeOne_append_some {b cp : Nat} {rest r : List Nat}
    (h : decodeOne b rest = some (cp, r)) :
    decodeOne b (rest ++ [10]) = some (cp, r ++ [10]) := by
  by_cases h1 : b < 128
  · unfold decodeOne at h ⊢
    rw [if_pos h1] at h ⊢
    simp only [Option.some.injEq, Prod.mk.injEq] at h
    simp [h.1, h.2]
  by_cases h2 : b < 194
  · unfold decodeOne at h
    rw [if_neg h1, if_pos h2] at h
    exact absurd h (by simp)
  by_cases h3 : b < 224
  · rcases rest with _ | ⟨c1, r0⟩
    · unfold decodeOne at h
      rw [if_neg h1, if_neg h2, if_pos h3] at h
      exact absurd h (by simp)
    · unfold decodeOne at h ⊢
      rw [if_neg h1, if_neg h2, if_pos h3] at h ⊢
      simp only [List.cons_append]
      dsimp only at h
      split at h
      · rename_i hc
        try dsimp only
        rw [if_pos hc]
        simp only [Option.some.injEq, Prod.mk.injEq] at h
        obtain ⟨rfl, rfl⟩ := h
        rfl
      · exact absurd h (by simp)
  by_cases h4 : b < 240
  · rcases rest with _ | ⟨c1, _ | ⟨c2, r0⟩⟩
    · unfold decodeOne at h
      rw [if_neg h1, if_neg h2, if_neg h3, if_pos h4] at h
      exact absurd h (by simp)
    · unfold decodeOne at h
      rw [if_neg h1, if_neg h2, if_neg h3, if_pos h4] at h
      exact absurd h (by simp)
    · unfold decodeOne at h ⊢
      rw [if_neg h1, if_neg h2, if_neg h3, if_pos h4] at h ⊢
      simp only [List.cons_append]
      dsimp only at h
      split at h
      · rename_i hc
        try dsimp only
        rw [if_pos hc]
        simp only [Option.some.injEq, Prod.mk.injEq] at h
        obtain ⟨rfl, rfl⟩ := h
        rfl
      · exact absurd h (by simp)
  by_cases h5 : b < 245
  · rcases rest with _ | ⟨c1, _ | ⟨c2, _ | ⟨c3, r0⟩⟩⟩
    · unfold decodeOne at h
      rw [if_neg h1, if_neg h2, if_neg h3, if_neg h4, if_pos h5] at h
      exact absurd h (by simp)
    · unfold decodeOne at h
      rw [if_neg h1, if_neg h2, if_neg h3, if_neg h4, if_pos h5] at h
      exact absurd h (by simp)
    · unfold decodeOne at h
      rw [if_neg h1, if_neg h2, if_neg h3, if_neg h4, if_pos h5] at h
      exact absurd h (by simp)
    · unfold decodeOne at h ⊢
      rw [if_neg h1, if_neg h2, if_neg h3, if_neg h4, if_pos h5] at h ⊢
      simp only [List.cons_append]
      dsimp only at h
      split at h
      · rename_i hc
        try dsimp only
        rw [if_pos hc]
        simp only [Option.some.injEq, Prod.mk.injEq] at h
        obtain ⟨rfl, rfl⟩ := h
        rfl
      · exact absurd h (by simp)
  · unfold decodeOne at h
    rw [if_neg h1, if_neg h2, if_neg h3, if_neg h4, if_neg h5] at h
    exact absurd h (by simp)
/-- Lifting decodeOne_append_some through the decoding loop. -/
theorem utf8DecodeF_append_newline (fuel : Nat) :
    ∀ xs s : List Nat, utf8DecodeF fuel xs = some s →
      utf8DecodeF (fuel + 1) (xs ++ [10]) = some (s ++ [10]) := by
  induction fuel with
  | zero =>
    intro xs s h
    cases xs with
    | nil =>
      simp [utf8DecodeF] at h
      subst h
      simp [utf8DecodeF, decodeOne]
    | cons b rest => simp [utf8DecodeF] at h
  | succ fuel ih =>
    intro xs s h
    cases xs with
    | nil =>
      simp [utf8DecodeF] at h
      subst h
      simp [utf8DecodeF, decodeOne]
    | cons b rest =>
      rw [utf8DecodeF] at h
      split at h
      · simp at h
      · rename_i cp r hde
        simp only [Option.map_eq_some'] at h
        obtain ⟨s0, hs0, rfl⟩ := h
        have hmain := ih r s0 hs0
        simp only [List.cons_append]
        rw [utf8DecodeF, decodeOne_append_some hde]
        simp [hmain]

theorem utf8Decode_append_newline {xs s : List Nat} (h : utf8Decode xs = some s) :
    utf8Decode (xs ++ [10]) = some (s ++ [10]) := by
  have hm := utf8DecodeF_append_newline xs.length xs s h
  simpa [utf8Decode] using hm

theorem splitFrame_shape : ∀ buf f r : List Nat, splitFrame buf = some (f, r) →
    ∃ body, f = body ++ [10] ∧ 10 ∉ body := by
  intro buf
  induction buf with
  | nil => intro f r h; simp [splitFrame] at h
  | cons b rest ih =>
    intro f r h
    rw [splitFrame] at h
    by_cases hb : b = 10
    · subst hb
      simp only [beq_self_eq_true, if_true, Option.some.injEq, Prod.mk.injEq] at h
      exact ⟨[], by simp [h.1.symm], by simp⟩
    · have hb2 : (b == 10) = false := beq_eq_false_iff_ne.mpr hb
      rw [hb2] at h
      simp only [Bool.false_eq_true, if_false, Option.map_eq_some'] at h
      obtain ⟨⟨f0, r0⟩, hsp, hf⟩ := h
      obtain ⟨body, rfl, hnb⟩ := ih f0 r0 hsp
      simp only [Prod.mk.injEq] at hf
      refine ⟨b :: body, ?_, ?_⟩
      · rw [← hf.1]
        simp
      · simp [hnb]
        omega
/-! ### Claims -/

/-- Claim C1 (counterexample): one connect failure followed by an available
success is not retried. The run logs one connecting line and no connected
line — not the two connecting lines and one connected line the claim
requires for N = 1 — and the net task terminates with only a printed
stack trace. -/
theorem C1_counterexample :
    netRun cfg0 [.connectFail, .connectOk] =
      ([.logLine (connectingLine cfg0), .printExc], .exited) ∧
    countLog (connectingLine cfg0) (netRun cfg0 [.connectFail, .connectOk]).1 = 1 ∧
    countLog connectedLine (netRun cfg0 [.connectFail, .connectOk]).1 = 0 ∧
    ¬(countLog (connectingLine cfg0) (netRun cfg0 [.connectFail, .connectOk]).1 = 2 ∧
      countLog connectedLine (netRun cfg0 [.connectFail, .connectOk]).1 = 1) := by
  decide

/-- Claim C1 (amended): a connect failure while Connecting is not retried:
the exception escapes the reconnect loop into the bare except, which
prints a stack trace (no transcript line) and ends the net task, ignoring
every later event. Consequently only the zero-failure run exists: a first
connect attempt that succeeds logs exactly one connecting line followed by
one connected line. -/
theorem C1_amended_no_retry (cfg : Cfg) (w : Option Bool) (rest : List NetEvent) :
    netSteps cfg (.connecting w) (.connectFail :: rest) = ([.printExc], .exited) ∧
    netRun cfg (.connectFail :: rest) =
      ([.logLine (connectingLine cfg), .printExc], .exited) ∧
    netRun cfg [.connectOk] =
      ([.logLine (connectingLine cfg), .logLine connectedLine], .pending) := by
  refine ⟨?_, ?_, ?_⟩ <;> simp [netSteps, netRun]

/-- Claim C2 (counterexample): an error raised inside Client.recv while
connected (EndOfStream mid-frame or an I/O failure) does not produce an
error transcript line, does not close the transport and does not
reconnect: the bare except prints a stack trace and the net task ends. -/
theorem C2_counterexample :
    netRun cfg0 [.connectOk, .recvErr] =
      ([.logLine (connectingLine cfg0), .logLine connectedLine, .printExc], .exited) ∧
    countLog connClosedLine (netRun cfg0 [.connectOk, .recvErr]).1 = 0 ∧
    Action.closeWriter ∉ (netRun cfg0 [.connectOk, .recvErr]).1 ∧
    countLog (connectingLine cfg0) (netRun cfg0 [.connectOk, .recvErr]).1 = 1 := by
  decide

/-- Claim C2 (amended): only a disconnect observed by the receive-loop
guard (reader at EOF or writer closing) logs the error line, closes the
writer and loops back to reconnect; an EndOfStream or I/O error raised
during an in-progress receive instead terminates the net task with only a
printed stack trace. -/
theorem C2_amended_disconnect (cfg : Cfg) (rest : List NetEvent) :
    netSteps cfg .connected (.eofSeen :: rest) =
      (.logLine connClosedLine :: .closeWriter :: .logLine (connectingLine cfg) ::
        (netSteps cfg (.connecting (some true)) rest).1,
       (netSteps cfg (.connecting (some true)) rest).2) ∧
    netSteps cfg .connected (.recvErr :: rest) = ([.printExc], .exited) := by
  constructor <;> simp [netSteps]

/-- Claim C4 (confirmed): user input is stripped of leading and trailing
whitespace first; an input that strips to empty sends nothing, and any
other input sends the UTF-8 encoding of the sender name, a colon-space
separator, the trimmed body and a newline. The two concrete scenarios of
the specification hold for the client named alice. -/
theorem C4_outbound_encoding (cfg : Cfg) (raw : List Nat) :
    (entry_binding cfg (some false) raw).sent =
      (if pyStrip raw = [] then none
       else some (utf8Encode (cfg.name ++ str ": " ++ pyStrip raw ++ [10]))) ∧
    entry_binding cfg0 (some false) (str "  hello world  ") =
      { sent := some (str "alice: hello world\n"), ret := str "break" } ∧
    entry_binding cfg0 (some false) (str "     ") =
      { sent := none, ret := str "break" } := by
  refine ⟨?_, by decide, by decide⟩
  by_cases hs : pyStrip raw = [] <;> simp [entry_binding, hs]

/-- Claim C5 (confirmed): cancellation delivered while Connected processes
no further events: the handler logs the quitting line, calls close() on
the live writer, awaits wait_closed() so the task completes only after the
writer is fully closed, and the pump awaits the finished task as its last
action before the process exits. -/
theorem C5_graceful_shutdown (cfg : Cfg) (rest : List NetEvent) :
    netSteps cfg .connected (.cancel :: rest) =
      ([.logLine quittingLine, .closeWriter, .waitClosed], .closed) ∧
    asyncRun cfg (.connectOk :: .cancel :: rest) =
      ([.logLine (connectingLine cfg), .logLine connectedLine, .logLine quittingLine,
        .closeWriter, .waitClosed, .awaitNetTask], .closed) := by
  constructor <;> simp [netSteps, asyncRun, netRun, cancelHandler]

/-- Claim C9 (confirmed): a submission with no live transport — the writer
still None or already closing — schedules no send and returns the break
control signal to Tk. -/
theorem C9_no_transport_noop (cfg : Cfg) (raw : List Nat) :
    entry_binding cfg none raw = { sent := none, ret := str "break" } ∧
    entry_binding cfg (some true) raw = { sent := none, ret := str "break" } := by
  constructor <;> simp [entry_binding]

/-- Claim C10 (confirmed): cancellation delivered before the first
connection succeeded finds the writer still None: the handler logs the
quitting line and then dereferences the absent writer, so the net task
ends with an AttributeError instead of the graceful close, and the pump
awaiting the task propagates that error. -/
theorem C10_early_cancel_attr_error (cfg : Cfg) (rest : List NetEvent) :
    netRun cfg (.cancel :: rest) =
      ([.logLine (connectingLine cfg), .logLine quittingLine], .attrError) ∧
    asyncRun cfg (.cancel :: rest) =
      ([.logLine (connectingLine cfg), .logLine quittingLine, .awaitNetTask], .attrError) := by
  constructor <;> simp [netSteps, asyncRun, netRun, cancelHandler]

/-- Claim C3 (confirmed): for a decoded inbound line, a focused window
triggers no notification and only logs the line; an unfocused window
whose line contains the literal mention substring triggers exactly the
mention sound and not the generic one; any other unfocused line triggers
exactly the generic sound; the line is logged in every case. -/
theorem C3_mention_notification (cfg : Cfg) (data s : List Nat) (focused : Bool)
    (rest : List NetEvent) (h : utf8Decode data = some s) :
    (focused = true →
      netSteps cfg .connected (.frame data focused :: rest) =
        (.logLine s.dropLast :: (netSteps cfg .connected rest).1,
         (netSteps cfg .connected rest).2)) ∧
    (focused = false → strContains (mention_str cfg) s.dropLast = true →
      netSteps cfg .connected (.frame data focused :: rest) =
        (.sound .mention :: .logLine s.dropLast :: (netSteps cfg .connected rest).1,
         (netSteps cfg .connected rest).2)) ∧
    (focused = false → strContains (mention_str cfg) s.dropLast = false →
      netSteps cfg .connected (.frame data focused :: rest) =
        (.sound .message :: .logLine s.dropLast :: (netSteps cfg .connected rest).1,
         (netSteps cfg .connected rest).2)) := by
  refine ⟨fun hf => ?_, fun hf hm => ?_, fun hf hm => ?_⟩ <;>
    subst hf <;> simp [netSteps, h, *]

/-- Claim C3 witness: the specification scenario — server sends a mention
of alice to an unfocused client named alice: exactly the mention sound
fires and the line is logged verbatim without its delimiter. -/
theorem C3_witness :
    utf8Decode (str "bob: hi @alice\n") = some (str "bob: hi @alice\n") ∧
    netSteps cfg0 .connected [.frame (str "bob: hi @alice\n") false] =
      ([.sound .mention, .logLine (str "bob: hi @alice")], .pending) := by
  refine ⟨by decide, ?_⟩
  have h := (C3_mention_notification cfg0 (str "bob: hi @alice\n") (str "bob: hi @alice\n")
    false [] (by decide)).2.1 rfl (by decide)
  rw [h]
  decide

/-- Claim C6 (counterexample): a delimiter-terminated frame whose content
byte 0xFF is not valid UTF-8 is not accepted as text: bytes.decode raises,
the bare except prints a stack trace, no Display Line is produced and the
net task ends. -/
theorem C6_counterexample :
    utf8Decode [255, 10] = none ∧
    netSteps cfg0 .connected [.frame [255, 10] false] = ([.printExc], .exited) := by
  decide

/-- Claim C6 (amended): a delimiter-terminated frame is accepted as text
whenever its bytes are valid UTF-8: the session logs the decoded Display
Line and continues with an unchanged outcome; it is frames that fail
UTF-8 decoding that kill the session task. -/
theorem C6_amended_decode (cfg : Cfg) (data s : List Nat) (focused : Bool)
    (rest : List NetEvent) (h : utf8Decode data = some s) :
    (netSteps cfg .connected (.frame data focused :: rest)).2 =
      (netSteps cfg .connected rest).2 ∧
    netSteps cfg .connected (.frame data focused :: rest) =
      ((if focused then []
        else if strContains (mention_str cfg) s.dropLast then [.sound .mention]
        else [.sound .message]) ++
          .logLine s.dropLast :: (netSteps cfg .connected rest).1,
       (netSteps cfg .connected rest).2) := by
  constructor <;> simp [netSteps, h]

/-- Claim C6 witness: a plain ASCII frame is accepted, logged, and leaves
the session running. -/
theorem C6_witness :
    utf8Decode (str "hiya\n") = some (str "hiya\n") ∧
    netSteps cfg0 .connected [.frame (str "hiya\n") true] =
      ([.logLine (str "hiya")], .pending) := by
  refine ⟨by decide, ?_⟩
  have h := (C6_amended_decode cfg0 (str "hiya\n") (str "hiya\n") true [] (by decide)).2
  rw [h]
  decide

/-- Claim C7 (confirmed): a delimiter-terminated frame whose body decodes
as UTF-8 decodes in full to the body text followed by the delimiter
character; dropping the last character therefore strips exactly the one
trailing delimiter, and the Display Line logged is the decoded body
verbatim. -/
theorem C7_verbatim_display (cfg : Cfg) (body s : List Nat) (focused : Bool)
    (rest : List NetEvent) (h : utf8Decode body = some s) :
    utf8Decode (body ++ [10]) = some (s ++ [10]) ∧
    (s ++ [10]).dropLast = s ∧
    netSteps cfg .connected (.frame (body ++ [10]) focused :: rest) =
      ((if focused then []
        else if strContains (mention_str cfg) s then [.sound .mention]
        else [.sound .message]) ++
          .logLine s :: (netSteps cfg .connected rest).1,
       (netSteps cfg .connected rest).2) := by
  have h10 := utf8Decode_append_newline h
  refine ⟨h10, by simp, ?_⟩
  simp [netSteps, h10]

/-- Claim C7 witness: the frame carrying hello plus the delimiter is
displayed as hello. -/
theorem C7_witness :
    utf8Decode (str "hello") = some (str "hello") ∧
    netSteps cfg0 .connected [.frame (str "hello" ++ [10]) true] =
      ([.logLine (str "hello")], .pending) := by
  refine ⟨by decide, ?_⟩
  have h := (C7_verbatim_display cfg0 (str "hello") (str "hello") true [] (by decide)).2.2
  rw [h]
  decide

/-- Claim C8 (counterexample): Client.recv returns the readuntil result,
which includes the trailing delimiter: on a buffer holding the bytes of
hi plus newline it returns all three bytes, not the delimiter-stripped
frame the claim describes. -/
theorem C8_counterexample :
    readuntilModel [] (str "hi\n") = some (str "hi\n", []) ∧
    str "hi\n" ≠ str "hi" := by
  decide

/-- Claim C8 (amended): every successful receive returns exactly one full
delimiter-terminated frame including its single trailing delimiter — the
delimiter occurs exactly once, at the end, so a partial frame is never
returned; the delimiter is stripped only later by the session decode. -/
theorem C8_amended_full_frame :
    ∀ (chunks : List (List Nat)) (buf f r : List Nat),
      readuntilModel chunks buf = some (f, r) →
      ∃ body, f = body ++ [10] ∧ 10 ∉ body := by
  intro chunks
  induction chunks with
  | nil =>
    intro buf f r h
    rw [readuntilModel] at h
    split at h
    · rename_i fr hsp
      obtain ⟨f0, r0⟩ := fr
      obtain ⟨rfl, rfl⟩ : f0 = f ∧ r0 = r := by simpa using h
      exact splitFrame_shape buf _ _ hsp
    · simp at h
  | cons c cs ih =>
    intro buf f r h
    rw [readuntilModel] at h
    split at h
    · rename_i fr hsp
      obtain ⟨f0, r0⟩ := fr
      obtain ⟨rfl, rfl⟩ : f0 = f ∧ r0 = r := by simpa using h
      exact splitFrame_shape buf _ _ hsp
    · exact ih (buf ++ c) f r h

/-- Claim C8 witness: receiving over a buffer that already holds one full
frame plus extra bytes yields precisely the frame with its delimiter. -/
theorem C8_witness :
    readuntilModel [] (str "hi\nrest") = some (str "hi\n", str "rest") ∧
    ∃ body, str "hi\n" = body ++ [10] ∧ 10 ∉ body := by
  refine ⟨by decide, ?_⟩
  exact C8_amended_full_frame [] (str "hi\nrest") (str "hi\n") (str "rest") (by decide)

end UwuChat
